import Mathlib

/-!
Verification of the event API serializers (`src/pretix/api/serializers/event.py`).

The serializers are embedded shallowly:

* `EventState` is the persisted row of an `Event` (with its metadata values and
  active plugins); `EventData` is a (possibly partial) validated payload, where
  a field equal to `none` was not supplied.  Datetime fields are modelled as
  `Option Nat` (nullable timestamps), so a supplied-but-null datetime is
  `some none`.
* Python exceptions (`ValidationError`, database integrity errors, attribute
  errors) are modelled with `Except String`.
* `@transaction.atomic` is modelled by the `atomic_*` wrappers: the committed
  state is the result of the step function on success and the untouched
  initial state on error.

Domain-model methods that live outside the given sources
(`Event.clean_dates`, `Event.clean_presale`, `Event.clean_live`,
`Event.set_active_plugins`, `Event.copy_data_from`, `Event.get_plugins`, the
model-level field defaults) are modelled from the spec; each such definition
says so in its doc comment.  `Event.clean_slug` and `Event.clean_has_subevents`
are delegated to the domain model by the serializer and are touched by no claim
here; they are not modelled.
-/

/-- A plugin as returned by the plugin registry `get_all_plugins`: a module
identifier, a name, and an optional `visible` attribute (Python code reads it
with `getattr(p, 'visible', True)`, hence the `Option`). -/
structure Plugin where
  module : String
  name : String
  visible : Option Bool
deriving Repr, DecidableEq

/-- Persisted state of one `Event` row together with its metadata values
(property name to value) and its active plugin modules. -/
structure EventState where
  organizer : Nat
  name : String
  slug : String
  live : Bool
  currency : String
  date_from : Option Nat
  date_to : Option Nat
  date_admission : Option Nat
  is_public : Bool
  presale_start : Option Nat
  presale_end : Option Nat
  location : String
  has_subevents : Bool
  meta_values : List (String × String)
  plugins : List String
deriving Repr, DecidableEq

/-- A validated serializer payload.  Every field of `EventSerializer.Meta.fields`
appears; `none` means the field was not supplied in the request. -/
structure EventData where
  name : Option String := none
  slug : Option String := none
  live : Option Bool := none
  currency : Option String := none
  date_from : Option (Option Nat) := none
  date_to : Option (Option Nat) := none
  date_admission : Option (Option Nat) := none
  is_public : Option Bool := none
  presale_start : Option (Option Nat) := none
  presale_end : Option (Option Nat) := none
  location : Option String := none
  has_subevents : Option Bool := none
  meta_data : Option (List (String × String)) := none
  plugins : Option (List String) := none
deriving Repr, DecidableEq

instance {ε α : Type} [DecidableEq ε] [DecidableEq α] : DecidableEq (Except ε α) := fun x y =>
  match x, y with
  | .ok a, .ok b => decidable_of_iff (a = b) (by simp)
  | .error a, .error b => decidable_of_iff (a = b) (by simp)
  | .ok _, .error _ => isFalse (by simp)
  | .error _, .ok _ => isFalse (by simp)

/-- Error message constants (the Python messages carry interpolated names;
only their identity matters here). -/
def errDates : String := "The event cannot end before it starts."

def errPresale : String := "The presale cannot end before it starts."

def errLiveCreate : String := "Events cannot be created as live."

def errMetaProp : String := "Meta data property does not exist."

def errUnknownPlugin : String := "Unknown plugin."

def errMetaIntegrity : String := "Integrity error: meta value created with property None."

def errCloneSourceMissing : String := "AttributeError: copy_data_from called on None."

def dotStr : String := "."

/-- Modelled from the spec: `Event.clean_dates` is not in the given sources;
the spec states the invariant `date_from ≤ date_to` when both are set, so the
check rejects exactly `date_from > date_to` with both present. -/
def clean_dates (date_from date_to : Option Nat) : Except String Unit :=
  match date_from, date_to with
  | some df, some dt => if dt < df then .error errDates else .ok ()
  | _, _ => .ok ()

/-- Modelled from the spec: `Event.clean_presale` is not in the given sources;
the spec states the invariant `presale_start ≤ presale_end`, so the check
rejects exactly `presale_start > presale_end` with both present. -/
def clean_presale (presale_start presale_end : Option Nat) : Except String Unit :=
  match presale_start, presale_end with
  | some ps, some pe => if pe < ps then .error errPresale else .ok ()
  | _, _ => .ok ()

/-- Modelled from the spec: `Event.set_active_plugins` is not in the given
sources; the spec calls plugin activation "a single set-replace operation". -/
def set_active_plugins (e : EventState) (pls : List String) : EventState :=
  { e with plugins := pls }

/-- Modelled from the spec: `Event.get_plugins` is not in the given sources;
it returns the stored active plugin modules of the event. -/
def get_plugins (e : EventState) : List String :=
  e.plugins

/-- `PluginsField.to_representation`: the set of module identifiers of
registered plugins that are not dot-prefixed, are visible, and are active on
the event. -/
def plugins_to_representation (registry : List Plugin) (e : EventState) : List String :=
  (registry.filter
    (fun p => !(p.name.startsWith dotStr) && p.visible.getD true
      && (get_plugins e).contains p.module)).map Plugin.module

/-- The set of plugin modules available to the instance, as computed inside
`EventSerializer.validate_plugins`: registered plugins that are not
dot-prefixed and are visible. -/
def plugins_available (registry : List Plugin) : List String :=
  (registry.filter (fun p => !(p.name.startsWith dotStr) && p.visible.getD true)).map Plugin.module

/-- The `for plugin in value` loop of `EventSerializer.validate_plugins`:
raise on the first entry outside the available set. -/
def validate_plugins_loop (avail : List String) : List String → Except String Unit
  | [] => .ok ()
  | m :: rest =>
    if m ∈ avail then validate_plugins_loop avail rest else .error errUnknownPlugin

/-- `EventSerializer.validate_plugins`: every inbound entry must belong to
`plugins_available` for the instance; the validated value is returned. -/
def validate_plugins (registry : List Plugin) (value : List String) :
    Except String (List String) :=
  match validate_plugins_loop (plugins_available registry) value with
  | .error e => .error e
  | .ok _ => .ok value

/-- `EventSerializer.validate_meta_data`: every key of the supplied mapping
must be a declared meta property name of the organizer. -/
def validate_meta_data (props : List String) : List (String × String) → Except String Unit
  | [] => .ok ()
  | kv :: rest =>
    if kv.1 ∈ props then validate_meta_data props rest else .error errMetaProp

/-- `EventSerializer.validate_live`; `cl` is the instance method
`Event.clean_live` (a domain-level readiness check outside the given sources,
passed as a parameter). -/
def validate_live (cl : EventState → Except String Unit) (instance_ : Option EventState)
    (value : Bool) : Except String Bool :=
  if value then
    match instance_ with
    | none => .error errLiveCreate
    | some inst =>
      match cl inst with
      | .ok _ => .ok value
      | .error e => .error e
  else
    .ok value

/-- `self.to_internal_value(self.to_representation(self.instance))`: the full
payload reconstructed from a stored event.  Every field is supplied; the
plugins field goes through the representation filter of `PluginsField`. -/
def instance_data (registry : List Plugin) (e : EventState) : EventData :=
  { name := some e.name
    slug := some e.slug
    live := some e.live
    currency := some e.currency
    date_from := some e.date_from
    date_to := some e.date_to
    date_admission := some e.date_admission
    is_public := some e.is_public
    presale_start := some e.presale_start
    presale_end := some e.presale_end
    location := some e.location
    has_subevents := some e.has_subevents
    meta_data := some e.meta_values
    plugins := some (plugins_to_representation registry e) }

/-- Python `dict.update`: fields supplied by `d` replace those of `full`. -/
def EventData.updateWith (full d : EventData) : EventData :=
  { name := d.name <|> full.name
    slug := d.slug <|> full.slug
    live := d.live <|> full.live
    currency := d.currency <|> full.currency
    date_from := d.date_from <|> full.date_from
    date_to := d.date_to <|> full.date_to
    date_admission := d.date_admission <|> full.date_admission
    is_public := d.is_public <|> full.is_public
    presale_start := d.presale_start <|> full.presale_start
    presale_end := d.presale_end <|> full.presale_end
    location := d.location <|> full.location
    has_subevents := d.has_subevents <|> full.has_subevents
    meta_data := d.meta_data <|> full.meta_data
    plugins := d.plugins <|> full.plugins }

/-- `EventSerializer.validate` (lines 54-63): `full_data` is built by merging
the stored representation with the incoming data, exactly as in the source —
and exactly as in the source it is then left unused: the date and presale
checks receive `data.get(...)`, the incoming fields only.  `data.get(f)` on a
missing or null datetime field is `none`, hence `Option.getD none`. -/
def EventSerializer_validate (registry : List Plugin) (instance_ : Option EventState)
    (data : EventData) : Except String EventData :=
  let full_data : EventData :=
    match instance_ with
    | some inst => (instance_data registry inst).updateWith data
    | none => {}
  match clean_dates (data.date_from.getD none) (data.date_to.getD none) with
  | .error e => .error e
  | .ok _ =>
    match clean_presale (data.presale_start.getD none) (data.presale_end.getD none) with
    | .error e => .error e
    | .ok _ => .ok data

/-- Modelled from the spec: the cross-field validation the spec describes —
"date ordering, presale window ordering ... run against merged
(existing + incoming) field state".  Kept separate from
`EventSerializer_validate` (the source) for comparison. -/
def validate_merged_spec (registry : List Plugin) (instance_ : Option EventState)
    (data : EventData) : Except String EventData :=
  let full_data : EventData :=
    match instance_ with
    | some inst => (instance_data registry inst).updateWith data
    | none => data
  match clean_dates (full_data.date_from.getD none) (full_data.date_to.getD none) with
  | .error e => .error e
  | .ok _ =>
    match clean_presale (full_data.presale_start.getD none) (full_data.presale_end.getD none) with
    | .error e => .error e
    | .ok _ => .ok data

/-- Modelled from the spec: the base `ModelSerializer.create` builds an `Event`
row from the supplied fields.  Field defaults for unsupplied fields live in the
`Event` model outside the given sources; the concrete default values are
immaterial to every claim. -/
def model_create (organizer : Nat) (d : EventData) : EventState :=
  { organizer := organizer
    name := d.name.getD ""
    slug := d.slug.getD ""
    live := d.live.getD false
    currency := d.currency.getD "EUR"
    date_from := d.date_from.getD none
    date_to := d.date_to.getD none
    date_admission := d.date_admission.getD none
    is_public := d.is_public.getD false
    presale_start := d.presale_start.getD none
    presale_end := d.presale_end.getD none
    location := d.location.getD ""
    has_subevents := d.has_subevents.getD false
    meta_values := []
    plugins := [] }

/-- The base `ModelSerializer.update`: `setattr` each supplied field on the
instance and save; metadata values and active plugins are untouched here. -/
def apply_base_update (st : EventState) (d : EventData) : EventState :=
  { st with
    name := d.name.getD st.name
    slug := d.slug.getD st.slug
    live := d.live.getD st.live
    currency := d.currency.getD st.currency
    date_from := d.date_from.getD st.date_from
    date_to := d.date_to.getD st.date_to
    date_admission := d.date_admission.getD st.date_admission
    is_public := d.is_public.getD st.is_public
    presale_start := d.presale_start.getD st.presale_start
    presale_end := d.presale_end.getD st.presale_end
    location := d.location.getD st.location
    has_subevents := d.has_subevents.getD st.has_subevents }

/-- The `for key, value in meta_data.items()` loop of `EventSerializer.create`:
`event.meta_values.create(property=self.meta_properties.get(key), value=value)`.
A key outside the organizer's properties makes `meta_properties.get` return
`None` and the row creation fail at the database. -/
def create_meta (props : List String) (db : List (String × String)) :
    List (String × String) → Except String (List (String × String))
  | [] => .ok db
  | (k, v) :: rest =>
    if k ∈ props then create_meta props (db ++ [(k, v)]) rest
    else .error errMetaIntegrity

/-- `EventSerializer.create` (lines 108-126), the body inside
`@transaction.atomic`: pop `meta_data` and `plugins`, build the base row,
create a meta value per supplied key, then set the active plugins. -/
def event_create (props : List String) (organizer : Nat) (validated : EventData) :
    Except String EventState :=
  let event := model_create organizer { validated with meta_data := none, plugins := none }
  let metaRes : Except String EventState :=
    match validated.meta_data with
    | some md =>
      match create_meta props [] md with
      | .error e => Except.error e
      | .ok mv => Except.ok { event with meta_values := mv }
    | none => Except.ok event
  match metaRes with
  | .error e => .error e
  | .ok ev2 =>
    match validated.plugins with
    | some pl => .ok (set_active_plugins ev2 pl)
    | none => .ok ev2

/-- The `for key, value in meta_data.items()` loop of `EventSerializer.update`:
`current` is the dict of stored values keyed by property, captured before the
loop, so membership is tested against `stored` while the database rows `db`
evolve.  A known property present in `current` is updated in place; a known
property absent from `current` is created; an unknown key makes
`meta_properties.get` return `None`, which is never in `current`, and the row
creation with `property=None` fails at the database. -/
def meta_loop (props : List String) (stored : List (String × String))
    (db : List (String × String)) :
    List (String × String) → Except String (List (String × String))
  | [] => .ok db
  | (k, v) :: rest =>
    if k ∈ props ∧ ∃ q ∈ stored, q.1 = k then
      meta_loop props stored (db.map (fun p => if p.1 = k then (p.1, v) else p)) rest
    else if k ∈ props then
      meta_loop props stored (db ++ [(k, v)]) rest
    else
      .error errMetaIntegrity

/-- The metadata section of `EventSerializer.update` (lines 134-150): run the
upsert loop, then delete every stored row whose property name is not a key of
the supplied mapping. -/
def update_meta_values (props : List String) (stored md : List (String × String)) :
    Except String (List (String × String)) :=
  match meta_loop props stored stored md with
  | .error e => .error e
  | .ok db =>
    .ok (db.filter (fun p => !(decide ((∃ q ∈ stored, q.1 = p.1) ∧ ¬ ∃ kv ∈ md, kv.1 = p.1))))

/-- `EventSerializer.update` (lines 128-157), the body inside
`@transaction.atomic`: pop `meta_data` and `plugins`, run the base field
update, reconcile the metadata values, then set the active plugins and save. -/
def update_steps (props : List String) (st : EventState) (d : EventData) :
    Except String EventState :=
  let event := apply_base_update st { d with meta_data := none, plugins := none }
  let metaRes : Except String EventState :=
    match d.meta_data with
    | some md =>
      match update_meta_values props event.meta_values md with
      | .error e => Except.error e
      | .ok mv => Except.ok { event with meta_values := mv }
    | none => Except.ok event
  match metaRes with
  | .error e => .error e
  | .ok ev2 =>
    match d.plugins with
    | some pl => .ok (set_active_plugins ev2 pl)
    | none => .ok ev2

/-- Modelled from the spec: `Event.copy_data_from` is not in the given sources;
the spec says cloning "copies configuration from a designated source event",
here represented by the source's metadata values, active plugins and public
flag. -/
def copy_data_from (dst src : EventState) : EventState :=
  { dst with
    meta_values := src.meta_values
    plugins := src.plugins
    is_public := src.is_public }

/-- `CloneEventSerializer.create` (lines 160-176), the body inside
`@transaction.atomic`: pop `plugins` and `is_public`, create the new event via
`EventSerializer.create`, look the source event up by the context slug within
the context organizer, copy its data, then apply the two overrides only when
they were explicitly supplied, and save.  `Event.objects.filter(...).first()`
on an empty result is `None`, and `copy_data_from(None)` then fails with an
attribute error, modelled by `errCloneSourceMissing`. -/
def clone_create (props : List String) (db : List EventState) (ctx_event : String)
    (ctx_organizer : Nat) (validated : EventData) : Except String EventState :=
  let pls := validated.plugins
  let ipb := validated.is_public
  match event_create props ctx_organizer { validated with plugins := none, is_public := none } with
  | .error e => .error e
  | .ok new_event =>
    match db.find? (fun e => decide (e.slug = ctx_event ∧ e.organizer = ctx_organizer)) with
    | none => .error errCloneSourceMissing
    | some src =>
      let ev1 := copy_data_from new_event src
      let ev2 := match pls with
        | some pl => set_active_plugins ev1 pl
        | none => ev1
      let ev3 := match ipb with
        | some b => { ev2 with is_public := b }
        | none => ev2
      .ok ev3

/-- The committed effect of `@transaction.atomic` around
`EventSerializer.update`: the new row state on success, the untouched initial
state on rollback. -/
def atomic_update (props : List String) (st : EventState) (d : EventData) : EventState :=
  match update_steps props st d with
  | .ok st2 => st2
  | .error _ => st

/-- The committed effect of `@transaction.atomic` around
`EventSerializer.create`: the created row on success, nothing persisted on
rollback. -/
def atomic_create (props : List String) (organizer : Nat) (d : EventData) :
    Option EventState :=
  match event_create props organizer d with
  | .ok ev => some ev
  | .error _ => none

/-- The committed effect of `@transaction.atomic` around
`CloneEventSerializer.create` on the event table: the table with the new row
appended on success, the untouched table on rollback. -/
def atomic_clone_db (props : List String) (db : List EventState) (ctx_event : String)
    (ctx_organizer : Nat) (validated : EventData) : List EventState :=
  match clone_create props db ctx_event ctx_organizer validated with
  | .ok ev => db ++ [ev]
  | .error _ => db

/-- The validation phase (`is_valid`) for the fields the claims touch: the
field validators `validate_live`, `validate_meta_data` and `validate_plugins`
in field order, then the cross-field `EventSerializer.validate`.
(`validate_slug` and `validate_has_subevents` delegate entirely to domain
methods outside the given sources and are touched by no claim.) -/
def run_validation (props : List String) (registry : List Plugin)
    (cl : EventState → Except String Unit) (instance_ : Option EventState)
    (d : EventData) : Except String EventData :=
  match (match d.live with
         | some v =>
           match validate_live cl instance_ v with
           | .error e => Except.error e
           | .ok _ => Except.ok ()
         | none => Except.ok ()) with
  | .error e => .error e
  | .ok _ =>
    match (match d.meta_data with
           | some md => validate_meta_data props md
           | none => Except.ok ()) with
    | .error e => .error e
    | .ok _ =>
      match (match d.plugins with
             | some pl =>
               match validate_plugins registry pl with
               | .error e => Except.error e
               | .ok _ => Except.ok ()
             | none => Except.ok ()) with
      | .error e => .error e
      | .ok _ => EventSerializer_validate registry instance_ d

/-- A full `PATCH` of an existing event: validate, then run the atomic update;
a validation error leaves the stored state untouched. -/
def api_update (props : List String) (registry : List Plugin)
    (cl : EventState → Except String Unit) (st : EventState) (d : EventData) : EventState :=
  match run_validation props registry cl (some st) d with
  | .error _ => st
  | .ok vd => atomic_update props st vd

/-- Stored event for the claim-1 failing input: `date_from = 1`,
`date_to = 5`. -/
def ev_c1 : EventState :=
  { organizer := 1, name := "Conference", slug := "conf", live := false, currency := "EUR",
    date_from := some 1, date_to := some 5, date_admission := none, is_public := true,
    presale_start := none, presale_end := none, location := "", has_subevents := false,
    meta_values := [], plugins := [] }

/-- Partial update for the claim-1 failing input: only `date_from = 10` is
supplied, beyond the stored `date_to = 5`. -/
def d_c1 : EventData := { date_from := some (some 10) }

/-- C1: the cross-field checks do NOT run against the merged state.
`EventSerializer.validate` builds `full_data` from the stored and the incoming
fields but then passes `data.get(...)` — the incoming fields only — to
`Event.clean_dates`.  On a stored event with `date_to = 5`, a partial update
supplying only `date_from = 10` is accepted by the code, although the merged
state has `date_from > date_to` and the merged-state check of the spec rejects
it. -/
theorem c1_merged_state_check_skipped :
    EventSerializer_validate [] (some ev_c1) d_c1 = .ok d_c1 ∧
    ((instance_data [] ev_c1).updateWith d_c1).date_from.getD none = some 10 ∧
    ((instance_data [] ev_c1).updateWith d_c1).date_to.getD none = some 5 ∧
    clean_dates (some 10) (some 5) = .error errDates ∧
    validate_merged_spec [] (some ev_c1) d_c1 = .error errDates := by
  decide

/-- C4: an input with `live = true` is rejected outright when no instance
exists (creation), and for an existing instance the outcome is exactly the
outcome of the domain-level readiness check `clean_live`. -/
theorem c4_live_rejected_on_create_delegated_on_update
    (cl : EventState → Except String Unit) (inst : EventState) :
    validate_live cl none true = .error errLiveCreate ∧
    validate_live cl (some inst) true = (cl inst).map (fun _ => true) := by
  refine ⟨rfl, ?_⟩
  cases h : cl inst <;> simp [validate_live, Except.map, h]

/-- C8: a falsy `live` value is accepted unconditionally: for every readiness
check `cl` and every instance (present or not), `validate_live` returns
`ok false`, so neither the creation guard nor `clean_live` decides anything. -/
theorem c8_falsy_live_accepted_unconditionally
    (cl : EventState → Except String Unit) (inst : Option EventState) :
    validate_live cl inst false = .ok false := rfl

theorem mem_plugins_available (registry : List Plugin) (m : String) :
    m ∈ plugins_available registry ↔
      ∃ p ∈ registry, p.module = m ∧ p.name.startsWith dotStr = false ∧
        p.visible.getD true = true := by
  simp only [plugins_available, List.mem_map, List.mem_filter, Bool.and_eq_true,
    Bool.not_eq_true']
  constructor
  · rintro ⟨p, ⟨hp, hdot, hvis⟩, hm⟩
    exact ⟨p, hp, hm, hdot, hvis⟩
  · rintro ⟨p, hp, hm, hdot, hvis⟩
    exact ⟨p, ⟨hp, hdot, hvis⟩, hm⟩

theorem validate_plugins_loop_cases (avail : List String) :
    ∀ value : List String,
      (validate_plugins_loop avail value = .ok () ↔ ∀ m ∈ value, m ∈ avail) ∧
      (validate_plugins_loop avail value = .error errUnknownPlugin ↔
        ∃ m ∈ value, m ∉ avail)
  | [] => by simp [validate_plugins_loop]
  | m :: rest => by
    have ih := validate_plugins_loop_cases avail rest
    by_cases hm : m ∈ avail
    · simp only [validate_plugins_loop, if_pos hm]
      constructor
      · rw [ih.1]
        constructor
        · rintro h m' hm'
          rcases List.mem_cons.mp hm' with rfl | h' 
          · exact hm
          · exact h m' h'
        · intro h m' hm'
          exact h m' (List.mem_cons_of_mem _ hm')
      · rw [ih.2]
        constructor
        · rintro ⟨m', hm', hnot⟩
          exact ⟨m', List.mem_cons_of_mem _ hm', hnot⟩
        · rintro ⟨m', hm', hnot⟩
          rcases List.mem_cons.mp hm' with rfl | h'
          · exact absurd hm hnot
          · exact ⟨m', h', hnot⟩
    · simp only [validate_plugins_loop, if_neg hm]
      constructor
      · constructor
        · intro h
          exact absurd h (by simp)
        · intro h
          exact absurd (h m (List.mem_cons_self m rest)) hm
      · constructor
        · intro _
          exact ⟨m, List.mem_cons_self m rest, hm⟩
        · intro _
          trivial

/-- C5: `validate_plugins` accepts an inbound list exactly when every entry is
in the available set for the instance — the modules of registered plugins that
are not dot-prefixed and are visible — and rejects with a validation error
exactly when some entry is outside that set. -/
theorem c5_plugins_validated_against_available_set
    (registry : List Plugin) (value : List String) :
    (validate_plugins registry value = .ok value ↔
      ∀ m ∈ value, m ∈ plugins_available registry) ∧
    (validate_plugins registry value = .error errUnknownPlugin ↔
      ∃ m ∈ value, m ∉ plugins_available registry) ∧
    (∀ m, m ∈ plugins_available registry ↔
      ∃ p ∈ registry, p.module = m ∧ p.name.startsWith dotStr = false ∧
        p.visible.getD true = true) := by
  have h := validate_plugins_loop_cases (plugins_available registry) value
  refine ⟨?_, ?_, fun m => mem_plugins_available registry m⟩
  · rw [← h.1]
    unfold validate_plugins
    cases hc : validate_plugins_loop (plugins_available registry) value with
    | ok u => cases u; simp
    | error e => simp
  · rw [← h.2]
    unfold validate_plugins
    cases hc : validate_plugins_loop (plugins_available registry) value with
    | ok u => cases u; simp
    | error e => simp

/-- C9: the wire representation of the plugins field contains a module exactly
when some registered plugin carries it, is not dot-prefixed, is visible, and
the module is active on the event; an active module that is hidden,
dot-prefixed or unregistered is omitted although `get_plugins` still lists it
as active. -/
theorem c9_plugins_representation_active_and_visible
    (registry : List Plugin) (e : EventState) (m : String) :
    m ∈ plugins_to_representation registry e ↔
      ((∃ p ∈ registry, p.module = m ∧ p.name.startsWith dotStr = false ∧
        p.visible.getD true = true) ∧ m ∈ get_plugins e) := by
  simp only [plugins_to_representation, List.mem_map, List.mem_filter, Bool.and_eq_true,
    Bool.not_eq_true', List.contains_iff_exists_mem_beq]
  constructor
  · rintro ⟨p, ⟨hp, ⟨hdot, hvis⟩, hact⟩, hm⟩
    subst hm
    rcases hact with ⟨m', hm', hbeq⟩
    have hb : p.module = m' := by simpa using hbeq
    exact ⟨⟨p, hp, rfl, hdot, hvis⟩, hb ▸ hm'⟩
  · rintro ⟨⟨p, hp, hm, hdot, hvis⟩, hact⟩
    subst hm
    exact ⟨p, ⟨hp, ⟨hdot, hvis⟩, ⟨p.module, hact, beq_self_eq_true _⟩⟩, rfl⟩

theorem validate_meta_data_error (props : List String) :
    ∀ md : List (String × String), (∃ kv ∈ md, kv.1 ∉ props) →
      validate_meta_data props md = .error errMetaProp
  | [], h => absurd h (by simp)
  | kv :: rest, h => by
    by_cases hk : kv.1 ∈ props
    · simp only [validate_meta_data, if_pos hk]
      rcases h with ⟨kv', hkv', hnot⟩
      rcases List.mem_cons.mp hkv' with rfl | h'
      · exact absurd hk hnot
      · exact validate_meta_data_error props rest ⟨kv', h', hnot⟩
    · simp only [validate_meta_data, if_neg hk]

theorem run_validation_error_of_bad_meta_key (props : List String) (registry : List Plugin)
    (cl : EventState → Except String Unit) (instance_ : Option EventState) (d : EventData)
    (md : List (String × String)) (hmd : d.meta_data = some md)
    (hbad : ∃ kv ∈ md, kv.1 ∉ props) :
    ∃ e, run_validation props registry cl instance_ d = .error e := by
  have hmeta := validate_meta_data_error props md hbad
  unfold run_validation
  cases hL : (match d.live with
              | some v =>
                match validate_live cl instance_ v with
                | .error e => Except.error e
                | .ok _ => Except.ok ()
              | none => Except.ok ()) with
  | error e => exact ⟨e, rfl⟩
  | ok u =>
    cases u
    exact ⟨errMetaProp, by simp [hmd, hmeta]⟩

/-- C3: a `meta_data` mapping holding a key outside the organizer's declared
property names makes validation fail — on create (no instance) as on update —
and the full update operation leaves the stored event, its metadata included,
exactly as it was. -/
theorem c3_unknown_meta_key_rejected_state_unchanged (props : List String)
    (registry : List Plugin) (cl : EventState → Except String Unit) (st : EventState)
    (d : EventData) (md : List (String × String)) (kv : String × String)
    (hmd : d.meta_data = some md) (hkv : kv ∈ md) (hbad : kv.1 ∉ props) :
    (∀ instance_ : Option EventState,
      ∃ e, run_validation props registry cl instance_ d = .error e) ∧
    api_update props registry cl st d = st := by
  have herr := fun instance_ =>
    run_validation_error_of_bad_meta_key props registry cl instance_ d md hmd ⟨kv, hkv, hbad⟩
  refine ⟨herr, ?_⟩
  rcases herr (some st) with ⟨e, he⟩
  unfold api_update
  rw [he]

/-- Witness for C3 at a concrete input: organizer property set `["a"]`, stored
event `ev_c1`, update supplying the unknown key `"z"`. -/
theorem c3_witness :
    (({ meta_data := some [("z", "1")] } : EventData).meta_data = some [("z", "1")]) ∧
    ("z", "1") ∈ [(("z" : String), ("1" : String))] ∧
    ("z", "1").1 ∉ ["a"] ∧
    ((∀ instance_ : Option EventState,
      ∃ e, run_validation ["a"] [] (fun _ => .ok ()) instance_
        { meta_data := some [("z", "1")] } = .error e) ∧
    api_update ["a"] [] (fun _ => .ok ()) ev_c1 { meta_data := some [("z", "1")] } = ev_c1) :=
  ⟨rfl, by decide, by decide,
    c3_unknown_meta_key_rejected_state_unchanged ["a"] [] (fun _ => .ok ()) ev_c1
      { meta_data := some [("z", "1")] } [("z", "1")] ("z", "1") rfl (by decide) (by decide)⟩

/-- Property names carried by a list of metadata rows. -/
def keysOf (l : List (String × String)) : List String := l.map Prod.fst

theorem mem_keysOf {l : List (String × String)} {k : String} :
    k ∈ keysOf l ↔ ∃ p ∈ l, p.1 = k := by
  simp [keysOf, List.mem_map]

theorem keysOf_cons (p : String × String) (l : List (String × String)) :
    keysOf (p :: l) = p.1 :: keysOf l := rfl

theorem keysOf_append (l1 l2 : List (String × String)) :
    keysOf (l1 ++ l2) = keysOf l1 ++ keysOf l2 := by
  simp [keysOf]

theorem keysOf_update (db : List (String × String)) (k0 v0 : String) :
    keysOf (db.map (fun p => if p.1 = k0 then (p.1, v0) else p)) = keysOf db := by
  simp only [keysOf, List.map_map]
  apply List.map_congr_left
  intro p _
  by_cases hp : p.1 = k0 <;> simp [hp]

theorem meta_loop_preserves (props : List String) (stored : List (String × String))
    (k v : String) :
    ∀ (rest db db' : List (String × String)),
      (∀ kv ∈ rest, kv.1 ≠ k) →
      (∀ row ∈ db, row.1 = k → row.2 = v) →
      meta_loop props stored db rest = .ok db' →
      ∀ row ∈ db', row.1 = k → row.2 = v
  | [], db, db', _, hdb, heq => by
    simp only [meta_loop] at heq
    cases heq
    exact hdb
  | (k0, v0) :: rest, db, db', hne, hdb, heq => by
    have hk0 : k0 ≠ k := hne (k0, v0) (List.mem_cons_self _ _)
    have hne' : ∀ kv ∈ rest, kv.1 ≠ k := fun kv hkv => hne kv (List.mem_cons_of_mem _ hkv)
    simp only [meta_loop] at heq
    by_cases h1 : k0 ∈ props ∧ ∃ q ∈ stored, q.1 = k0
    · rw [if_pos h1] at heq
      refine meta_loop_preserves props stored k v rest _ db' hne' ?_ heq
      intro row hrow hrk
      rcases List.mem_map.mp hrow with ⟨p, hp, hfp⟩
      by_cases hpk : p.1 = k0
      · rw [if_pos hpk] at hfp
        exact absurd (by rw [← hfp] at hrk; exact hpk ▸ hrk) hk0
      · rw [if_neg hpk] at hfp
        subst hfp
        exact hdb p hp hrk
    · rw [if_neg h1] at heq
      by_cases h2 : k0 ∈ props
      · rw [if_pos h2] at heq
        refine meta_loop_preserves props stored k v rest _ db' hne' ?_ heq
        intro row hrow hrk
        rcases List.mem_append.mp hrow with h | h
        · exact hdb row h hrk
        · have : row = (k0, v0) := by simpa using h
          subst this
          exact absurd hrk hk0
      · rw [if_neg h2] at heq
        exact absurd heq (by simp)

theorem meta_loop_main (props : List String) (stored : List (String × String)) :
    ∀ (rest db : List (String × String)),
      (∀ kv ∈ rest, kv.1 ∈ props) →
      (keysOf rest).Nodup →
      (∀ k, k ∈ keysOf db → k ∈ keysOf stored ∨ k ∉ keysOf rest) →
      ∃ db', meta_loop props stored db rest = .ok db' ∧
        (∀ k, k ∈ keysOf db' ↔ (k ∈ keysOf db ∨ (k ∈ keysOf rest ∧ k ∉ keysOf stored))) ∧
        (∀ kv ∈ rest, ∀ row ∈ db', row.1 = kv.1 → row.2 = kv.2)
  | [], db, _, _, _ => by
    refine ⟨db, by simp [meta_loop], ?_, by simp⟩
    intro k
    simp [keysOf]
  | (k0, v0) :: rest, db, hvalid, hnd, hinv => by
    have hv0 : k0 ∈ props := hvalid (k0, v0) (List.mem_cons_self _ _)
    have hvrest : ∀ kv ∈ rest, kv.1 ∈ props :=
      fun kv hkv => hvalid kv (List.mem_cons_of_mem _ hkv)
    rw [keysOf_cons] at hnd
    have hk0rest : k0 ∉ keysOf rest := (List.nodup_cons.mp hnd).1
    have hndrest : (keysOf rest).Nodup := (List.nodup_cons.mp hnd).2
    have hne0 : ∀ kv ∈ rest, kv.1 ≠ k0 := by
      intro kv hkv heq
      exact hk0rest (heq ▸ mem_keysOf.mpr ⟨kv, hkv, rfl⟩)
    by_cases hst : ∃ q ∈ stored, q.1 = k0
    · -- update-in-place branch
      have hs : k0 ∈ keysOf stored := mem_keysOf.mpr hst
      obtain ⟨db', hrun, hkeys, hvals⟩ :=
        meta_loop_main props stored rest
          (db.map (fun p => if p.1 = k0 then (p.1, v0) else p)) hvrest hndrest
          (by
            intro k hk
            rw [keysOf_update] at hk
            rcases hinv k hk with h | h
            · exact Or.inl h
            · exact Or.inr (fun hmem => h (by rw [keysOf_cons]; exact List.mem_cons_of_mem _ hmem)))
      have hdb1 : ∀ row ∈ db.map (fun p => if p.1 = k0 then (p.1, v0) else p),
          row.1 = k0 → row.2 = v0 := by
        intro row hrow hrk
        rcases List.mem_map.mp hrow with ⟨p, _, hfp⟩
        by_cases hpk : p.1 = k0
        · rw [if_pos hpk] at hfp
          rw [← hfp]
        · rw [if_neg hpk] at hfp
          subst hfp
          exact absurd hrk hpk
      refine ⟨db', ?_, ?_, ?_⟩
      · simp only [meta_loop, if_pos (And.intro hv0 hst)]
        exact hrun
      · intro k
        rw [hkeys k, keysOf_update, keysOf_cons]
        constructor
        · rintro (h | ⟨hr, hns⟩)
          · exact Or.inl h
          · exact Or.inr ⟨List.mem_cons_of_mem _ hr, hns⟩
        · rintro (h | ⟨hr, hns⟩)
          · exact Or.inl h
          · rcases List.mem_cons.mp hr with rfl | hr'
            · exact absurd hs hns
            · exact Or.inr ⟨hr', hns⟩
      · intro kv hkv
        rcases List.mem_cons.mp hkv with rfl | hkv'
        · exact meta_loop_preserves props stored k0 v0 rest _ db' hne0 hdb1 hrun
        · exact hvals kv hkv'
    · -- create branch
      have hsf : k0 ∉ keysOf stored := fun h => hst (mem_keysOf.mp h)
      have hnot1 : ¬(k0 ∈ props ∧ ∃ q ∈ stored, q.1 = k0) := fun h => hst h.2
      have hk0db : k0 ∉ keysOf db := by
        intro h
        rcases hinv k0 h with h' | h'
        · exact hsf h'
        · exact h' (by rw [keysOf_cons]; exact List.mem_cons_self _ _)
      obtain ⟨db', hrun, hkeys, hvals⟩ :=
        meta_loop_main props stored rest (db ++ [(k0, v0)]) hvrest hndrest
          (by
            intro k hk
            rw [keysOf_append] at hk
            rcases List.mem_append.mp hk with h | h
            · rcases hinv k h with h' | h'
              · exact Or.inl h'
              · exact Or.inr (fun hmem => h' (by rw [keysOf_cons]; exact List.mem_cons_of_mem _ hmem))
            · have : k = k0 := by simpa [keysOf] using h
              subst this
              exact Or.inr hk0rest)
      have hdb1 : ∀ row ∈ db ++ [(k0, v0)], row.1 = k0 → row.2 = v0 := by
        intro row hrow hrk
        rcases List.mem_append.mp hrow with h | h
        · exact absurd (mem_keysOf.mpr ⟨row, h, hrk⟩) hk0db
        · have : row = (k0, v0) := by simpa using h
          subst this
          rfl
      refine ⟨db', ?_, ?_, ?_⟩
      · simp only [meta_loop, if_neg hnot1, if_pos hv0]
        exact hrun
      · intro k
        rw [hkeys k, keysOf_append, keysOf_cons]
        simp only [List.mem_append]
        constructor
        · rintro (⟨h | h⟩ | ⟨hr, hns⟩)
          · exact Or.inl h
          · have : k = k0 := by simpa [keysOf] using h
            subst this
            exact Or.inr ⟨List.mem_cons_self _ _, hsf⟩
          · exact Or.inr ⟨List.mem_cons_of_mem _ hr, hns⟩
        · rintro (h | ⟨hr, hns⟩)
          · exact Or.inl (Or.inl h)
          · rcases List.mem_cons.mp hr with rfl | hr'
            · exact Or.inl (Or.inr (by simp [keysOf]))
            · exact Or.inr ⟨hr', hns⟩
      · intro kv hkv
        rcases List.mem_cons.mp hkv with rfl | hkv'
        · exact meta_loop_preserves props stored k0 v0 rest _ db' hne0 hdb1 hrun
        · exact hvals kv hkv'

theorem update_meta_values_spec (props : List String) (stored md : List (String × String))
    (hvalid : ∀ kv ∈ md, kv.1 ∈ props) (hnd : (keysOf md).Nodup) :
    ∃ res, update_meta_values props stored md = .ok res ∧
      (∀ k, k ∈ keysOf res ↔ k ∈ keysOf md) ∧
      (∀ kv ∈ md, kv ∈ res) := by
  obtain ⟨db', hrun, hkeys, hvals⟩ :=
    meta_loop_main props stored md stored hvalid hnd (fun k hk => Or.inl hk)
  have hmemres : ∀ p : String × String,
      (p ∈ db'.filter
        (fun p => !(decide ((∃ q ∈ stored, q.1 = p.1) ∧ ¬ ∃ kv ∈ md, kv.1 = p.1))) ↔
      (p ∈ db' ∧ ¬((∃ q ∈ stored, q.1 = p.1) ∧ ¬ ∃ kv ∈ md, kv.1 = p.1))) := by
    intro p
    simp only [List.mem_filter, Bool.not_eq_true', decide_eq_false_iff_not]
  refine ⟨_, by unfold update_meta_values; rw [hrun], ?_, ?_⟩
  · intro k
    constructor
    · intro hk
      rcases mem_keysOf.mp hk with ⟨p, hp, hpk⟩
      rcases (hmemres p).mp hp with ⟨hpdb, hpred⟩
      have hkdb : k ∈ keysOf db' := mem_keysOf.mpr ⟨p, hpdb, hpk⟩
      rcases (hkeys k).mp hkdb with h | h
      · by_cases hmd : k ∈ keysOf md
        · exact hmd
        · exfalso
          apply hpred
          refine ⟨?_, ?_⟩
          · rcases mem_keysOf.mp h with ⟨q, hq, hqk⟩
            exact ⟨q, hq, by rw [hqk, hpk]⟩
          · intro hex
            rcases hex with ⟨kv, hkv, hkvk⟩
            exact hmd (mem_keysOf.mpr ⟨kv, hkv, by rw [hkvk, hpk]⟩)
      · exact h.1
    · intro hk
      have hkdb : k ∈ keysOf db' := by
        rw [hkeys k]
        by_cases hs : k ∈ keysOf stored
        · exact Or.inl hs
        · exact Or.inr ⟨hk, hs⟩
      rcases mem_keysOf.mp hkdb with ⟨p, hp, hpk⟩
      refine mem_keysOf.mpr ⟨p, (hmemres p).mpr ⟨hp, ?_⟩, hpk⟩
      rintro ⟨-, hno⟩
      rcases mem_keysOf.mp hk with ⟨kv, hkv, hkvk⟩
      exact hno ⟨kv, hkv, by rw [hkvk, hpk]⟩
  · intro kv hkv
    have hkmd : kv.1 ∈ keysOf md := mem_keysOf.mpr ⟨kv, hkv, rfl⟩
    have hkdb : kv.1 ∈ keysOf db' := by
      rw [hkeys kv.1]
      by_cases hs : kv.1 ∈ keysOf stored
      · exact Or.inl hs
      · exact Or.inr ⟨hkmd, hs⟩
    rcases mem_keysOf.mp hkdb with ⟨p, hp, hpk⟩
    have hval : p.2 = kv.2 := hvals kv hkv p hp hpk
    have hpeq : p = kv := Prod.ext hpk hval
    subst hpeq
    refine (hmemres p).mpr ⟨hp, ?_⟩
    rintro ⟨-, hno⟩
    exact hno ⟨p, hkv, rfl⟩

theorem validate_meta_data_ok (props : List String) :
    ∀ md, validate_meta_data props md = .ok () → ∀ kv ∈ md, kv.1 ∈ props
  | [], _, kv, h => absurd h (by simp)
  | kv0 :: rest, hok, kv, hkv => by
    by_cases hk : kv0.1 ∈ props
    · simp only [validate_meta_data, if_pos hk] at hok
      rcases List.mem_cons.mp hkv with rfl | h'
      · exact hk
      · exact validate_meta_data_ok props rest hok kv h'
    · simp only [validate_meta_data, if_neg hk] at hok
      exact absurd hok (by simp)

theorem run_validation_ok_meta (props : List String) (registry : List Plugin)
    (cl : EventState → Except String Unit) (instance_ : Option EventState)
    (d vd : EventData) (md : List (String × String))
    (hmd : d.meta_data = some md)
    (h : run_validation props registry cl instance_ d = .ok vd) :
    validate_meta_data props md = .ok () := by
  unfold run_validation at h
  cases hL : (match d.live with
              | some v =>
                match validate_live cl instance_ v with
                | .error e => Except.error e
                | .ok _ => Except.ok ()
              | none => Except.ok ()) with
  | error e => rw [hL] at h; simp at h
  | ok u =>
    cases u
    rw [hL] at h
    cases hV : validate_meta_data props md with
    | ok v => cases v; rfl
    | error e => simp [hmd, hV] at h

theorem run_validation_ok_vd (props : List String) (registry : List Plugin)
    (cl : EventState → Except String Unit) (instance_ : Option EventState)
    (d vd : EventData)
    (h : run_validation props registry cl instance_ d = .ok vd) :
    vd = d := by
  unfold run_validation at h
  cases hL : (match d.live with
              | some v =>
                match validate_live cl instance_ v with
                | .error e => Except.error e
                | .ok _ => Except.ok ()
              | none => Except.ok ()) with
  | error e => rw [hL] at h; simp at h
  | ok u =>
    cases u
    rw [hL] at h
    cases hM : (match d.meta_data with
                | some md => validate_meta_data props md
                | none => Except.ok ()) with
    | error e => rw [hM] at h; simp at h
    | ok u =>
      cases u
      rw [hM] at h
      cases hP : (match d.plugins with
                  | some pl =>
                    match validate_plugins registry pl with
                    | .error e => Except.error e
                    | .ok _ => Except.ok ()
                  | none => Except.ok ()) with
      | error e => rw [hP] at h; simp at h
      | ok u =>
        cases u
        rw [hP] at h
        simp only [] at h
        unfold EventSerializer_validate at h
        cases hc1 : clean_dates (d.date_from.getD none) (d.date_to.getD none) with
        | error e => rw [hc1] at h; simp at h
        | ok u =>
          cases u
          rw [hc1] at h
          cases hc2 : clean_presale (d.presale_start.getD none) (d.presale_end.getD none) with
          | error e => rw [hc2] at h; simp at h
          | ok u =>
            cases u
            rw [hc2] at h
            simp at h
            exact h.symm

/-- C2: on an update supplying `meta_data` that passes validation, the stored
key set after the update is exactly the key set of the supplied mapping, and
every supplied pair is stored (existing keys updated in place, missing keys
created, stored keys absent from the mapping deleted). -/
theorem c2_meta_update_reconciles_key_set (props : List String) (registry : List Plugin)
    (cl : EventState → Except String Unit) (st : EventState) (d : EventData)
    (md : List (String × String))
    (hmd : d.meta_data = some md)
    (hnd : (keysOf md).Nodup)
    (hok : run_validation props registry cl (some st) d = .ok d) :
    ∃ st', update_steps props st d = .ok st' ∧
      api_update props registry cl st d = st' ∧
      (∀ k, k ∈ keysOf st'.meta_values ↔ k ∈ keysOf md) ∧
      (∀ kv ∈ md, kv ∈ st'.meta_values) := by
  have hvm : validate_meta_data props md = .ok () :=
    run_validation_ok_meta props registry cl (some st) d d md hmd hok
  have hvalid : ∀ kv ∈ md, kv.1 ∈ props := validate_meta_data_ok props md hvm
  obtain ⟨res, hres, hkeys, hvals⟩ :=
    update_meta_values_spec props st.meta_values md hvalid hnd
  have hres' : update_meta_values props
      (apply_base_update st { d with meta_data := none, plugins := none }).meta_values md
      = .ok res := hres
  have hsteps : ∃ st', update_steps props st d = .ok st' ∧ st'.meta_values = res := by
    unfold update_steps
    simp only [hmd, hres']
    cases hpl : d.plugins with
    | some pl => exact ⟨_, rfl, rfl⟩
    | none => exact ⟨_, rfl, rfl⟩
  obtain ⟨st', hsteps, hmeta⟩ := hsteps
  refine ⟨st', hsteps, ?_, ?_, ?_⟩
  · unfold api_update
    rw [hok]
    simp [atomic_update, hsteps]
  · intro k
    rw [hmeta]
    exact hkeys k
  · intro kv hkv
    rw [hmeta]
    exact hvals kv hkv

/-- Stored event for the claim-2 witness: metadata `a = 1`, `b = 2`. -/
def ev_c2 : EventState :=
  { organizer := 1, name := "Conference", slug := "conf", live := false, currency := "EUR",
    date_from := none, date_to := none, date_admission := none, is_public := true,
    presale_start := none, presale_end := none, location := "", has_subevents := false,
    meta_values := [("a", "1"), ("b", "2")], plugins := [] }

/-- Update payload for the claim-2 witness: metadata mapping `a = 9, c = 3`
(updates `a`, creates `c`, deletes `b`). -/
def d_c2 : EventData := { meta_data := some [("a", "9"), ("c", "3")] }

/-- Witness for C2 at the concrete input: organizer properties `a, b, c`;
the resulting key set is exactly the supplied one. -/
theorem c2_witness :
    (keysOf [("a", "9"), ("c", "3")]).Nodup ∧
    run_validation ["a", "b", "c"] [] (fun _ => .ok ()) (some ev_c2) d_c2 = .ok d_c2 ∧
    (∃ st', update_steps ["a", "b", "c"] ev_c2 d_c2 = .ok st' ∧
      api_update ["a", "b", "c"] [] (fun _ => .ok ()) ev_c2 d_c2 = st' ∧
      (∀ k, k ∈ keysOf st'.meta_values ↔ k ∈ keysOf [("a", "9"), ("c", "3")]) ∧
      (∀ kv ∈ [(("a" : String), ("9" : String)), ("c", "3")], kv ∈ st'.meta_values)) :=
  ⟨by decide, by decide,
    c2_meta_update_reconciles_key_set ["a", "b", "c"] [] (fun _ => .ok ()) ev_c2 d_c2
      [("a", "9"), ("c", "3")] rfl (by decide) (by decide)⟩

/-- C6: on a clone whose base creation succeeds and whose source lookup finds
`src`, the operation succeeds; the result carries the supplied plugins when
they were supplied and the source's plugins otherwise, the supplied public
flag when it was supplied and the source's otherwise, the source's copied
configuration, the base record built from the validated input, and `src` is an
event of the table with the context slug and organizer. -/
theorem c6_clone_copies_then_overrides (props : List String) (db : List EventState)
    (ctxe : String) (org : Nat) (validated : EventData) (ne src : EventState)
    (hev : event_create props org { validated with plugins := none, is_public := none }
      = .ok ne)
    (hfind : db.find? (fun e => decide (e.slug = ctxe ∧ e.organizer = org)) = some src) :
    ∃ res, clone_create props db ctxe org validated = .ok res ∧
      res.plugins = (match validated.plugins with | some pl => pl | none => src.plugins) ∧
      res.is_public =
        (match validated.is_public with | some b => b | none => src.is_public) ∧
      res.meta_values = src.meta_values ∧
      res.slug = ne.slug ∧ res.name = ne.name ∧
      src ∈ db ∧ src.slug = ctxe ∧ src.organizer = org := by
  have hmem : src ∈ db := List.mem_of_find?_eq_some hfind
  have hp := List.find?_some hfind
  have hpred : src.slug = ctxe ∧ src.organizer = org := by simpa using hp
  simp only [clone_create, hev, hfind]
  cases hpl : validated.plugins with
  | some pl =>
    cases hip : validated.is_public with
    | some b => exact ⟨_, rfl, rfl, rfl, rfl, rfl, rfl, hmem, hpred.1, hpred.2⟩
    | none => exact ⟨_, rfl, rfl, rfl, rfl, rfl, rfl, hmem, hpred.1, hpred.2⟩
  | none =>
    cases hip : validated.is_public with
    | some b => exact ⟨_, rfl, rfl, rfl, rfl, rfl, rfl, hmem, hpred.1, hpred.2⟩
    | none => exact ⟨_, rfl, rfl, rfl, rfl, rfl, rfl, hmem, hpred.1, hpred.2⟩

/-- Source event for the claim-6 witness. -/
def src_c6 : EventState :=
  { organizer := 1, name := "Original", slug := "src", live := false, currency := "EUR",
    date_from := none, date_to := none, date_admission := none, is_public := false,
    presale_start := none, presale_end := none, location := "", has_subevents := false,
    meta_values := [("m", "v")], plugins := ["q"] }

/-- Clone payload for the claim-6 witness: plugins supplied, is_public not. -/
def d_c6 : EventData := { name := some "Copy", slug := some "copy", plugins := some ["p"] }

/-- Base record the claim-6 clone creates before copying. -/
def ne_c6 : EventState :=
  { organizer := 1, name := "Copy", slug := "copy", live := false, currency := "EUR",
    date_from := none, date_to := none, date_admission := none, is_public := false,
    presale_start := none, presale_end := none, location := "", has_subevents := false,
    meta_values := [], plugins := [] }

/-- Witness for C6 at the concrete input: the supplied plugins override wins,
the unsupplied public flag falls back to the source's. -/
theorem c6_witness :
    (event_create [] 1 { d_c6 with plugins := none, is_public := none } = .ok ne_c6) ∧
    ([src_c6].find? (fun e => decide (e.slug = "src" ∧ e.organizer = 1)) = some src_c6) ∧
    (∃ res, clone_create [] [src_c6] "src" 1 d_c6 = .ok res ∧
      res.plugins = (match d_c6.plugins with | some pl => pl | none => src_c6.plugins) ∧
      res.is_public =
        (match d_c6.is_public with | some b => b | none => src_c6.is_public) ∧
      res.meta_values = src_c6.meta_values ∧
      res.slug = ne_c6.slug ∧ res.name = ne_c6.name ∧
      src_c6 ∈ [src_c6] ∧ src_c6.slug = "src" ∧ src_c6.organizer = 1) :=
  ⟨by decide, by decide,
    c6_clone_copies_then_overrides [] [src_c6] "src" 1 d_c6 ne_c6 src_c6
      (by decide) (by decide)⟩

/-- C7: the transaction boundary makes every failing multi-step write commit
nothing: a failing update leaves the stored row unchanged, a failing create
persists no row, a failing clone leaves the event table unchanged. -/
theorem c7_failed_write_commits_nothing (props : List String) (st : EventState)
    (d : EventData) (org : Nat) (d2 : EventData) (db : List EventState) (ctxe : String)
    (d3 : EventData) (e1 e2 e3 : String)
    (h1 : update_steps props st d = .error e1)
    (h2 : event_create props org d2 = .error e2)
    (h3 : clone_create props db ctxe org d3 = .error e3) :
    atomic_update props st d = st ∧
    atomic_create props org d2 = none ∧
    atomic_clone_db props db ctxe org d3 = db := by
  refine ⟨?_, ?_, ?_⟩
  · simp [atomic_update, h1]
  · simp [atomic_create, h2]
  · simp [atomic_clone_db, h3]

/-- Witness for C7 at concrete inputs: an update whose metadata step fails
after the base-field write (unknown key against an empty property set), a
create failing the same way, and a clone whose source lookup fails. -/
theorem c7_witness :
    (update_steps [] ev_c2 { name := some "N", meta_data := some [("z", "1")] }
      = .error errMetaIntegrity) ∧
    (event_create [] 0 { meta_data := some [("z", "1")] } = .error errMetaIntegrity) ∧
    (clone_create [] [] "s" 0 {} = .error errCloneSourceMissing) ∧
    (atomic_update [] ev_c2 { name := some "N", meta_data := some [("z", "1")] } = ev_c2 ∧
     atomic_create [] 0 { meta_data := some [("z", "1")] } = none ∧
     atomic_clone_db [] [] "s" 0 {} = []) :=
  ⟨by decide, by decide, by decide,
    c7_failed_write_commits_nothing [] ev_c2 { name := some "N", meta_data := some [("z", "1")] }
      0 { meta_data := some [("z", "1")] } [] "s" {}
      errMetaIntegrity errMetaIntegrity errCloneSourceMissing
      (by decide) (by decide) (by decide)⟩

/-- C10: the clone's source lookup yields a record exactly when an event with
the context slug exists within the context organizer, and when none exists the
lookup is `None` and the clone fails where `copy_data_from` is applied to the
absent result — the precondition is never checked beforehand. -/
theorem c10_clone_requires_existing_source (props : List String) (db : List EventState)
    (ctxe : String) (org : Nat) (validated : EventData) (ne : EventState)
    (hev : event_create props org { validated with plugins := none, is_public := none }
      = .ok ne)
    (hnone : ∀ e ∈ db, ¬(e.slug = ctxe ∧ e.organizer = org)) :
    (∀ db2 : List EventState,
      (∃ e ∈ db2, e.slug = ctxe ∧ e.organizer = org) ↔
        (db2.find? (fun e => decide (e.slug = ctxe ∧ e.organizer = org))).isSome = true) ∧
    db.find? (fun e => decide (e.slug = ctxe ∧ e.organizer = org)) = none ∧
    clone_create props db ctxe org validated = .error errCloneSourceMissing := by
  have hfnone : db.find? (fun e => decide (e.slug = ctxe ∧ e.organizer = org)) = none :=
    List.find?_eq_none.mpr (fun e he => by simpa using hnone e he)
  refine ⟨?_, hfnone, ?_⟩
  · intro db2
    rw [List.find?_isSome]
    simp
  · simp only [clone_create, hev, hfnone]

/-- Base record for the claim-10 witness clone. -/
def ne_c10 : EventState :=
  { organizer := 0, name := "", slug := "", live := false, currency := "EUR",
    date_from := none, date_to := none, date_admission := none, is_public := false,
    presale_start := none, presale_end := none, location := "", has_subevents := false,
    meta_values := [], plugins := [] }

/-- Witness for C10 at the concrete input: an empty event table holds no
source, the lookup is `None`, and the clone fails at `copy_data_from`. -/
theorem c10_witness :
    (event_create [] 0 { ({} : EventData) with plugins := none, is_public := none }
      = .ok ne_c10) ∧
    (∀ e ∈ ([] : List EventState), ¬(e.slug = "s" ∧ e.organizer = 0)) ∧
    ((∀ db2 : List EventState,
      (∃ e ∈ db2, e.slug = "s" ∧ e.organizer = 0) ↔
        (db2.find? (fun e => decide (e.slug = "s" ∧ e.organizer = 0))).isSome = true) ∧
    ([] : List EventState).find? (fun e => decide (e.slug = "s" ∧ e.organizer = 0)) = none ∧
    clone_create [] [] "s" 0 {} = .error errCloneSourceMissing) :=
  ⟨by decide, by simp,
    c10_clone_requires_existing_source [] [] "s" 0 {} ne_c10 (by decide) (by simp)⟩
